import Mathlib

/-!
Shallow embedding of the client/transport core of gaia-mcp-go:
the typed HTTP transport (pkg/httpclient), the image-acquisition resize
step (pkg/imageutil), and the chunked-upload orchestrator
(internal/api UploadImages and its helpers).

Network effects are modelled by explicit oracles: a transport oracle
mapping the attempt index to the outcome of that HTTP attempt, and a
part-upload oracle mapping a destination URL to the response of the
presigned endpoint.  JSON (de)serialization is abstracted by functions
supplied as parameters, mirroring the `json.Unmarshal` call sites.
-/

namespace GaiaMCP

/-! ## Typed transport (pkg/httpclient client.go) -/

/-- Client configuration fields used by `doRequest` (baseURL, maxRetries,
retryDelay from the `Client` struct). -/
structure ClientCfg where
  baseURL : String
  maxRetries : Nat
  retryDelay : Nat
deriving Repr, DecidableEq

/-- Outcome of one attempt of `c.client.Do(req)`: a network/connection
failure, or an HTTP response with a status code and a body. -/
inductive AttemptOutcome where
  | netErr (msg : String)
  | resp (status : Nat) (body : String)
deriving Repr, DecidableEq

/-- One HTTP attempt as actually sent on the wire by `doRequest`: the
method, the full URL, and the bytes read from the shared request-body
buffer at the time the attempt was made. -/
structure HttpAttempt where
  method : String
  url : String
  sentBody : String
deriving Repr, DecidableEq

/-- shouldRetry from client.go: retry on 429, 500, 502, 503, 504. -/
def shouldRetry (statusCode : Nat) : Bool :=
  statusCode == 429 || statusCode == 500 || statusCode == 502 ||
    statusCode == 503 || statusCode == 504

/-- Result of `doRequest`: the response eventually returned to the caller,
or an error after exhausting retries on network failures. -/
inductive DoResult where
  | ok (status : Nat) (body : String)
  | err (msg : String)
deriving Repr, DecidableEq

/-- Retry loop of `doRequest`.  `attemptsLeft` is `maxRetries - attempt`;
`buf` is the current contents of the request-body buffer.  The body is a
single `bytes.Buffer` created once before the loop, so performing an
attempt drains it: every subsequent attempt reads an empty buffer. -/
def doRequestAux (transport : Nat → AttemptOutcome) (method url : String) :
    Nat → Nat → String → DoResult × List HttpAttempt
  | 0, attempt, buf =>
    (match transport attempt with
     | .netErr m =>
       (.err ("request failed after " ++ toString (attempt + 1) ++ " attempts: " ++ m),
        [{ method := method, url := url, sentBody := buf }])
     | .resp s b => (.ok s b, [{ method := method, url := url, sentBody := buf }]))
  | n + 1, attempt, buf =>
    match transport attempt with
    | .netErr _ =>
      let r := doRequestAux transport method url n (attempt + 1) ""
      (r.1, { method := method, url := url, sentBody := buf } :: r.2)
    | .resp s b =>
      if shouldRetry s then
        let r := doRequestAux transport method url n (attempt + 1) ""
        (r.1, { method := method, url := url, sentBody := buf } :: r.2)
      else (.ok s b, [{ method := method, url := url, sentBody := buf }])

/-- doRequest from client.go: builds `url = baseURL + endpoint`, marshals
the payload once into a shared buffer, then runs the retry loop.
`payload` is the already-marshalled JSON body (`none` for a nil payload). -/
def doRequest (cfg : ClientCfg) (transport : Nat → AttemptOutcome)
    (method endpoint : String) (payload : Option String) :
    DoResult × List HttpAttempt :=
  doRequestAux transport method (cfg.baseURL ++ endpoint) cfg.maxRetries 0 (payload.getD "")

/-! ## Response decoding (parseJSONResponse) -/

/-- An HTTP response as seen by `parseJSONResponse`. -/
structure RawResponse where
  statusCode : Nat
  body : String
deriving Repr, DecidableEq

/-- Errors produced by the transport layer: `apiError` is the structured
`*APIError` (statusCode, message); `decodeError` is the
`failed to unmarshal response` error; `netError` a network failure. -/
inductive ReqError where
  | apiError (statusCode : Nat) (message : String)
  | decodeError (raw : String)
  | netError (msg : String)
deriving Repr, DecidableEq

/-- True exactly for the structured `*APIError` shape. -/
def isStructuredError : ReqError → Bool
  | .apiError _ _ => true
  | _ => false

/-- parseJSONResponse from client.go.  `parseAPIErrorMsg` abstracts
`json.Unmarshal(body, &apiErr)`: it returns the `message` field when the
body unmarshals into the APIError shape, `none` otherwise.  `decodeBody`
abstracts `json.Unmarshal(body, target)` for the target type `T`. -/
def parseJSONResponse {T : Type} (parseAPIErrorMsg : String → Option String)
    (decodeBody : String → Option T) (resp : RawResponse) : Except ReqError T :=
  if 400 ≤ resp.statusCode then
    match parseAPIErrorMsg resp.body with
    | some msg =>
      if msg = "" then .error (.apiError resp.statusCode resp.body)
      else .error (.apiError resp.statusCode msg)
    | none => .error (.apiError resp.statusCode resp.body)
  else
    match decodeBody resp.body with
    | some v => .ok v
    | none => .error (.decodeError resp.body)

/-- Message of the structured error produced for a status ≥ 400 body:
the parsed `message` field when the body parses into the APIError shape
with a non-empty message, otherwise the raw body text. -/
def apiErrorMessageOf (parseAPIErrorMsg : String → Option String) (body : String) : String :=
  match parseAPIErrorMsg body with
  | some m => if m = "" then body else m
  | none => body

/-- The full typed call path (`As[T]` / `PostJSON` and friends):
`doRequest` followed by `parseJSONResponse`.  Also returns the list of
HTTP attempts performed. -/
def executeTyped {T : Type} (cfg : ClientCfg) (transport : Nat → AttemptOutcome)
    (parseAPIErrorMsg : String → Option String) (decodeBody : String → Option T)
    (method endpoint : String) (payload : Option String) :
    Except ReqError T × List HttpAttempt :=
  match doRequest cfg transport method endpoint payload with
  | (.ok s b, log) => (parseJSONResponse parseAPIErrorMsg decodeBody { statusCode := s, body := b }, log)
  | (.err m, log) => (.error (.netError m), log)

/-! ## Chunked upload orchestrator (internal/api UploadImages) -/

/-- CHUNK_SIZE / shared.UPLOAD_CHUNK_SIZE: 10 MiB. -/
def CHUNK_SIZE : Nat := 1024 * 1024 * 10

/-- UploadPart: partNumber (1-based) plus the integrity tag (ETag). -/
structure UploadPart where
  etag : String
  partNumber : Nat
deriving Repr, DecidableEq

/-- Response of a presigned part-destination endpoint: HTTP status, the
value of the `ETag` response header (`""` when absent), and the body. -/
structure PartResponse where
  status : Nat
  etagHdr : String
  body : String
deriving Repr, DecidableEq

/-- Chunk boundary computation and the slice `imageData[start:end]` of the
chunk goroutine: `start = i*CHUNK_SIZE`, `end = min(start+CHUNK_SIZE, len)`.
Returns `none` when the slice expression would panic (`start > end`). -/
def sliceChunk (data : List Nat) (i : Nat) : Option (List Nat) :=
  let start := i * CHUNK_SIZE
  let stop := min (start + CHUNK_SIZE) data.length
  if start ≤ stop then some ((data.drop start).take (stop - start)) else none

/-- ceil(L / CHUNK_SIZE): the number of parts the spec's partition
produces for a buffer of length `L`. -/
def numChunks (L : Nat) : Nat := (L + CHUNK_SIZE - 1) / CHUNK_SIZE

/-- The partNumbers assigned by the dispatch loop: task `i` gets `i + 1`. -/
def assignedPartNumbers (n : Nat) : List Nat := (List.range n).map (· + 1)

/-- The direct HTTP request built by `uploadChunk`
(http.NewRequestWithContext plus the explicitly set headers). -/
structure ChunkRequest where
  method : String
  url : String
  body : List Nat
  headers : List (String × String)
deriving Repr, DecidableEq

/-- Request construction in `uploadChunk`: a PUT sent to the destination
URL itself (not `baseURL ++ url`), whose body is the raw chunk bytes, with
exactly the two explicitly set headers.  The request is executed on a
fresh `http.Client`, so no client-level default header is attached. -/
def buildChunkRequest (chunk : List Nat) (url : String) : ChunkRequest :=
  { method := "PUT"
    url := url
    body := chunk
    headers := [("Content-Type", "application/octet-stream"),
                ("Content-Length", toString chunk.length)] }

/-- Case-sensitive lookup in an explicit header list. -/
def headerLookup (hs : List (String × String)) (key : String) : Option String :=
  (hs.find? (fun h => h.1 == key)).map (fun h => h.2)

/-- The HTTP requests performed by one `uploadChunk` call: exactly one
direct request, whatever the outcome (the task does not retry). -/
def uploadChunkRequests (chunk : List Nat) (url : String) : List ChunkRequest :=
  [buildChunkRequest chunk url]

/-- uploadChunk from the api package: one direct PUT to the presigned URL;
fail on a network error, on a status other than 200, or on a missing
ETag header; otherwise record the ETag and the part number.
`net` is the oracle giving the destination's response to the (single)
request actually sent (`none` = network failure). -/
def uploadChunk (net : ChunkRequest → Option PartResponse) (chunk : List Nat)
    (url : String) (partNumber : Nat) : Except String UploadPart :=
  match net (buildChunkRequest chunk url) with
  | none => .error ("failed to upload chunk " ++ toString partNumber)
  | some r =>
    if r.status ≠ 200 then
      .error ("chunk " ++ toString partNumber ++ " upload failed with status " ++
        toString r.status ++ ": " ++ r.body)
    else if r.etagHdr = "" then
      .error ("missing ETag in response for chunk " ++ toString partNumber)
    else
      .ok { etag := r.etagHdr, partNumber := partNumber }

/-- How a chunk task fills its two index-addressed slots
(`uploadErrs[i]`, `uploadParts[i]`): an error goes into the error slot and
leaves the part slot nil, a success goes into the part slot. -/
def taskRecord (outcome : Except String UploadPart) : Option String × Option UploadPart :=
  match outcome with
  | .error e => (some e, none)
  | .ok p => (none, some p)

/-- The dispatch loop over `initUploadResponse.UploadUrls`: task `i` slices
chunk `i` and uploads it with partNumber `i + 1`.  A `none` result models
the process dying from the out-of-range slice panic in a goroutine. -/
def runChunkTasksAux (net : ChunkRequest → Option PartResponse) (data : List Nat) :
    List String → Nat → Option (List (Option String × Option UploadPart))
  | [], _ => some []
  | url :: rest, i =>
    match sliceChunk data i with
    | none => none
    | some chunk =>
      match runChunkTasksAux net data rest (i + 1) with
      | none => none
      | some recs => some (taskRecord (uploadChunk net chunk url (i + 1)) :: recs)

/-- All chunk tasks of one image, indexed from 0. -/
def runChunkTasks (net : ChunkRequest → Option PartResponse) (data : List Nat)
    (urls : List String) : Option (List (Option String × Option UploadPart)) :=
  runChunkTasksAux net data urls 0

/-- The decide step after `wg.Wait()`: if any error slot is set the upload
is abandoned (`none`: finalize not called); otherwise the non-nil parts
are collected in slot order and passed to finalize. -/
def uploadDecision (recs : List (Option String × Option UploadPart)) :
    Option (List UploadPart) :=
  if recs.any (fun r => r.1.isSome) then none
  else some (recs.filterMap (fun r => r.2))

/-- InitUploadResponse: session key, upload id, ordered presigned part
URLs, and the uploaded-file descriptor echoed back on success. -/
structure InitUploadResponse where
  key : String
  uploadId : String
  uploadUrls : List String
  file : String
deriving Repr, DecidableEq

/-- The per-image environment: `fetch` models `processImage` (bytes,
width, height, or an error message), `initUpload` models `initUploadImage`
(fileSize, width, height ↦ session), `net` the part destinations, and
`completeStatus` the status returned by POST /api/upload/complete. -/
structure UploadEnv where
  fetch : String → Except String (List Nat × Nat × Nat)
  initUpload : Nat → Nat → Nat → Except String InitUploadResponse
  net : ChunkRequest → Option PartResponse
  completeStatus : Nat

/-- Outcome recorded for one image by the UploadImages loop. -/
inductive ImageOutcome where
  | panicked
  | failed (url reason : String)
  | uploaded (file : String)
deriving Repr, DecidableEq

/-- Trace of one iteration of the UploadImages loop: the recorded outcome
and, when the finalize call was made, the parts passed to it. -/
structure ImageTrace where
  outcome : ImageOutcome
  finalizeCall : Option (List UploadPart)
deriving Repr, DecidableEq

/-- strings.HasPrefix(imageUrl, "http"), modelled over the character
list of the string. -/
def validateImageUrl (url : String) : Bool :=
  "http".data.isPrefixOf url.data

/-- Characters of a URL before the first colon. -/
def urlSchemeAux : List Char → List Char
  | [] => []
  | c :: rest => if c = ':' then [] else c :: urlSchemeAux rest

/-- Scheme of a URL reference: everything before the first `:`. -/
def urlScheme (url : String) : String := ⟨urlSchemeAux url.data⟩

/-- One iteration of the UploadImages loop for a single image URL:
validate the reference, fetch and process the image, initialize the
session, run all chunk tasks, decide, and finalize.  `finalizeCall` is
`some parts` exactly when POST /api/upload/complete was made. -/
def uploadOneImage (env : UploadEnv) (url : String) : ImageTrace :=
  if !validateImageUrl url then
    { outcome := .failed url "URL must start with http:// or https://", finalizeCall := none }
  else
    match env.fetch url with
    | .error e => { outcome := .failed url e, finalizeCall := none }
    | .ok (data, w, h) =>
      match env.initUpload data.length w h with
      | .error e => { outcome := .failed url e, finalizeCall := none }
      | .ok ir =>
        match runChunkTasks env.net data ir.uploadUrls with
        | none => { outcome := .panicked, finalizeCall := none }
        | some recs =>
          match uploadDecision recs with
          | none =>
            { outcome := .failed url "Failed to upload some chunks", finalizeCall := none }
          | some parts =>
            if env.completeStatus ≠ 200 ∧ env.completeStatus ≠ 201 then
              { outcome := .failed url
                  ("failed to complete upload (status " ++ toString env.completeStatus ++ ")")
                finalizeCall := some parts }
            else
              { outcome := .uploaded ir.file, finalizeCall := some parts }

/-! ## Image acquisition resize step (pkg/imageutil resizeImage) -/

/-- Dimension computation of `resizeImage`: pass through when the source
fits in the bounds, otherwise scale by `min(maxW/srcW, maxH/srcH)` and
truncate (`int(...)` in Go) the scaled dimensions.  Rational arithmetic
stands in for the source's float64 arithmetic. -/
def resizeImageDims (srcW srcH maxW maxH : ℕ) : ℕ × ℕ :=
  if srcW ≤ maxW ∧ srcH ≤ maxH then (srcW, srcH)
  else
    let scaleX : ℚ := (maxW : ℚ) / (srcW : ℚ)
    let scaleY : ℚ := (maxH : ℚ) / (srcH : ℚ)
    let scale : ℚ := if scaleY < scaleX then scaleY else scaleX
    ((⌊(srcW : ℚ) * scale⌋).toNat, (⌊(srcH : ℚ) * scale⌋).toNat)

/-- Modelled from the spec's wording for comparison (claim C8): same
scaling, but the scaled dimensions are rounded rather than truncated. -/
def specResizeDimsRounded (srcW srcH maxW maxH : ℕ) : ℕ × ℕ :=
  let scale : ℚ := min ((maxW : ℚ) / (srcW : ℚ)) ((maxH : ℚ) / (srcH : ℚ))
  if 1 ≤ scale then (srcW, srcH)
  else ((round ((srcW : ℚ) * scale)).toNat, (round ((srcH : ℚ) * scale)).toNat)

/-! ## Helper lemmas and claim theorems -/

/-- With a transport that always answers 503, the retry loop performs one
attempt per fuel unit plus the final one, and returns the last response. -/
lemma doRequestAux_all_503 (transport : Nat → AttemptOutcome) (body m u : String)
    (h : ∀ k, transport k = .resp 503 body) :
    ∀ (n attempt : Nat) (buf : String),
      (doRequestAux transport m u n attempt buf).1 = .ok 503 body ∧
      (doRequestAux transport m u n attempt buf).2.length = n + 1 := by
  intro n
  induction n with
  | zero =>
    intro attempt buf
    simp [doRequestAux, h attempt]
  | succ k ih =>
    intro attempt buf
    have hr : shouldRetry 503 = true := by decide
    simp [doRequestAux, h attempt, hr, (ih (attempt + 1) "").1, (ih (attempt + 1) "").2]

/-- On any status ≥ 400, parseJSONResponse yields the structured error
with that status and the parsed-or-raw message. -/
lemma parseJSONResponse_ge400 {T : Type} (parse : String → Option String)
    (decode : String → Option T) (resp : RawResponse) (h : 400 ≤ resp.statusCode) :
    parseJSONResponse parse decode resp =
      .error (.apiError resp.statusCode (apiErrorMessageOf parse resp.body)) := by
  unfold parseJSONResponse apiErrorMessageOf
  rw [if_pos h]
  cases hp : parse resp.body with
  | none => rfl
  | some m =>
    by_cases hm : m = "" <;> simp [hm]

/-- C2: with a transport that answers 503 on every attempt, the typed
call performs exactly `maxRetries + 1` HTTP attempts and the caller then
receives the last status-based error: a structured error with statusCode
503 whose message is the parsed-or-raw body of the last response,
unmodified and not swallowed. -/
theorem retry_bound_always_503 {T : Type} (cfg : ClientCfg)
    (transport : Nat → AttemptOutcome) (parseAPIErrorMsg : String → Option String)
    (decodeBody : String → Option T) (method endpoint : String)
    (payload : Option String) (body : String)
    (h : ∀ k, transport k = .resp 503 body) :
    (executeTyped cfg transport parseAPIErrorMsg decodeBody method endpoint payload).2.length
        = cfg.maxRetries + 1 ∧
    (executeTyped cfg transport parseAPIErrorMsg decodeBody method endpoint payload).1
        = .error (.apiError 503 (apiErrorMessageOf parseAPIErrorMsg body)) := by
  have hd := doRequestAux_all_503 transport body method (cfg.baseURL ++ endpoint) h
    cfg.maxRetries 0 (payload.getD "")
  unfold executeTyped doRequest
  rcases hp : doRequestAux transport method (cfg.baseURL ++ endpoint) cfg.maxRetries 0
      (payload.getD "") with ⟨res, log⟩
  rw [hp] at hd
  simp only at hd
  obtain ⟨h1, h2⟩ := hd
  subst h1
  simp only
  refine ⟨h2, ?_⟩
  exact parseJSONResponse_ge400 parseAPIErrorMsg decodeBody ⟨503, body⟩ (by norm_num)

theorem retry_bound_always_503_witness :
    ((∀ k : Nat, (fun _ => AttemptOutcome.resp 503 "busy") k = .resp 503 "busy") ∧
      (executeTyped ⟨"https://api.example", 2, 1⟩ (fun _ => .resp 503 "busy")
          (fun _ => none) (fun _ => (none : Option Nat)) "GET" "/api/x" none).2.length = 3 ∧
      (executeTyped ⟨"https://api.example", 2, 1⟩ (fun _ => .resp 503 "busy")
          (fun _ => none) (fun _ => (none : Option Nat)) "GET" "/api/x" none).1
        = .error (.apiError 503 "busy")) := by
  refine ⟨fun k => rfl, ?_⟩
  have h := retry_bound_always_503 ⟨"https://api.example", 2, 1⟩ (fun _ => .resp 503 "busy")
    (fun _ => none) (fun _ => (none : Option Nat)) "GET" "/api/x" none "busy" (fun k => rfl)
  exact ⟨h.1, h.2⟩

/-- C3 (code bug): on a retried request with a non-nil payload the retry
attempt keeps the same method and path but sends an empty body, because
the single `bytes.Buffer` holding the marshalled payload was drained by
the first attempt.  Here a POST with body "PAYLOAD" receives a 503 and is
retried: the second attempt's body is `""`, not "PAYLOAD". -/
theorem retry_resends_drained_body :
    (doRequest ⟨"https://api.example", 3, 1⟩
        (fun n => if n = 0 then .resp 503 "busy" else .resp 200 "ok")
        "POST" "/api/img" (some "PAYLOAD")).2 =
      [⟨"POST", "https://api.example/api/img", "PAYLOAD"⟩,
       ⟨"POST", "https://api.example/api/img", ""⟩] ∧
    (("" : String) == "PAYLOAD") = false := by
  exact ⟨by decide, by decide⟩

/-- C4: every response with statusCode ≥ 400 decodes to a structured
error carrying that statusCode, whose message is the parsed
structured-error body when it parses (with a non-empty message) and the
raw body text otherwise; a response with statusCode < 400 whose body does
not deserialize into the target type yields a decode error that is not a
structured error. -/
theorem parse_response_error_classification {T : Type}
    (parseAPIErrorMsg : String → Option String) (decodeBody : String → Option T)
    (resp : RawResponse) :
    (400 ≤ resp.statusCode →
      parseJSONResponse parseAPIErrorMsg decodeBody resp =
        .error (.apiError resp.statusCode (apiErrorMessageOf parseAPIErrorMsg resp.body)) ∧
      isStructuredError (.apiError resp.statusCode (apiErrorMessageOf parseAPIErrorMsg resp.body))
        = true) ∧
    (resp.statusCode < 400 → decodeBody resp.body = none →
      parseJSONResponse parseAPIErrorMsg decodeBody resp = .error (.decodeError resp.body) ∧
      isStructuredError (.decodeError resp.body) = false) := by
  constructor
  · intro h
    exact ⟨parseJSONResponse_ge400 parseAPIErrorMsg decodeBody resp h, rfl⟩
  · intro h hdec
    constructor
    · unfold parseJSONResponse
      rw [if_neg (by omega), hdec]
    · rfl

theorem parse_response_error_classification_witness :
    ((400 : Nat) ≤ 503 ∧
      parseJSONResponse (fun s => if s = "structured" then some "boom" else none)
          (fun _ => (none : Option Nat)) ⟨503, "structured"⟩ =
        .error (.apiError 503 "boom")) ∧
    ((200 : Nat) < 400 ∧
      parseJSONResponse (fun s => if s = "structured" then some "boom" else none)
          (fun _ => (none : Option Nat)) ⟨200, "junk"⟩ =
        .error (.decodeError "junk")) := by
  constructor
  · refine ⟨by norm_num, ?_⟩
    have h := (parse_response_error_classification
      (fun s => if s = "structured" then some "boom" else none)
      (fun _ => (none : Option Nat)) ⟨503, "structured"⟩).1 (by norm_num)
    exact h.1.trans (by rfl)
  · refine ⟨by norm_num, ?_⟩
    have h := (parse_response_error_classification
      (fun s => if s = "structured" then some "boom" else none)
      (fun _ => (none : Option Nat)) ⟨200, "junk"⟩).2 (by norm_num) rfl
    exact h.1

lemma string_append_ne_self (base s : String) (h : base ≠ "") : s ≠ base ++ s := by
  intro heq
  have hlen : s.length = (base ++ s).length := congrArg String.length heq
  rw [String.length_append] at hlen
  have hb : base.length = 0 := by omega
  apply h
  cases base with
  | mk data =>
    cases data with
    | nil => rfl
    | cons c cs => simp [String.length] at hb

/-- C6: every per-part chunk upload is a PUT sent directly to its
presigned destination URL (never prefixed with the client's base URL),
whose body is the raw chunk bytes, with `Content-Type:
application/octet-stream` and an explicit `Content-Length` equal to the
chunk length, and with no `Authorization` header (the request bypasses
the base transport and its default headers). -/
theorem direct_part_upload_request (chunk : List Nat) (url : String) (cfg : ClientCfg) :
    (buildChunkRequest chunk url).method = "PUT" ∧
    (buildChunkRequest chunk url).url = url ∧
    (buildChunkRequest chunk url).body = chunk ∧
    headerLookup (buildChunkRequest chunk url).headers "Content-Type"
      = some "application/octet-stream" ∧
    headerLookup (buildChunkRequest chunk url).headers "Content-Length"
      = some (toString chunk.length) ∧
    headerLookup (buildChunkRequest chunk url).headers "Authorization" = none ∧
    uploadChunkRequests chunk url = [buildChunkRequest chunk url] ∧
    (cfg.baseURL ≠ "" → (buildChunkRequest chunk url).url ≠ cfg.baseURL ++ url) := by
  refine ⟨rfl, rfl, rfl, ?_, ?_, ?_, rfl, ?_⟩
  · simp [headerLookup, buildChunkRequest, List.find?]
  · simp [headerLookup, buildChunkRequest, List.find?]
  · simp [headerLookup, buildChunkRequest, List.find?]
  · intro hb
    exact string_append_ne_self cfg.baseURL url hb

theorem direct_part_upload_request_witness :
    (("https://api.example" : String) ≠ "" ∧
      (buildChunkRequest [7, 9] "https://bucket.example/p1").url ≠
        "https://api.example" ++ "https://bucket.example/p1") ∧
    headerLookup (buildChunkRequest [7, 9] "https://bucket.example/p1").headers "Authorization"
      = none := by
  have h := direct_part_upload_request [7, 9] "https://bucket.example/p1"
    ⟨"https://api.example", 3, 1⟩
  exact ⟨⟨by decide, h.2.2.2.2.2.2.2 (by decide)⟩, h.2.2.2.2.2.1⟩

/-- C7: a chunk task records an upload part result (partNumber = index+1
plus the integrity tag extracted from the destination's response) exactly
when its part upload succeeds (status 200 and a non-empty ETag); a failed
part upload is recorded as a per-part error in the task's error slot; and
the task performs exactly one request — it does not retry. -/
theorem chunk_task_recording (net : ChunkRequest → Option PartResponse)
    (chunk : List Nat) (url : String) (i : Nat) :
    (∀ p, uploadChunk net chunk url (i + 1) = .ok p →
      p.partNumber = i + 1 ∧
      taskRecord (uploadChunk net chunk url (i + 1)) = (none, some p) ∧
      ∃ r, net (buildChunkRequest chunk url) = some r ∧
        r.status = 200 ∧ r.etagHdr ≠ "" ∧ p.etag = r.etagHdr) ∧
    (∀ e, uploadChunk net chunk url (i + 1) = .error e →
      taskRecord (uploadChunk net chunk url (i + 1)) = (some e, none)) ∧
    uploadChunkRequests chunk url = [buildChunkRequest chunk url] := by
  refine ⟨?_, ?_, rfl⟩
  · intro p hp
    unfold uploadChunk at hp ⊢
    cases hn : net (buildChunkRequest chunk url) with
    | none => rw [hn] at hp; exact absurd hp (by simp)
    | some r =>
      rw [hn] at hp
      dsimp only at hp ⊢
      by_cases hs : r.status ≠ 200
      · rw [if_pos hs] at hp; exact absurd hp (by simp)
      · rw [if_neg hs] at hp ⊢
        by_cases he : r.etagHdr = ""
        · rw [if_pos he] at hp; exact absurd hp (by simp)
        · rw [if_neg he] at hp ⊢
          have hpv : p = { etag := r.etagHdr, partNumber := i + 1 } := by
            cases hp; rfl
          subst hpv
          exact ⟨rfl, rfl, r, rfl, by omega, he, rfl⟩
  · intro e he
    rw [he]
    rfl

theorem chunk_task_recording_witness :
    (uploadChunk (fun _ => some ⟨200, "etag-1", ""⟩) [1, 2] "https://p1" (0 + 1) =
        .ok ⟨"etag-1", 1⟩ ∧
      taskRecord (uploadChunk (fun _ => some ⟨200, "etag-1", ""⟩) [1, 2] "https://p1" (0 + 1)) =
        (none, some ⟨"etag-1", 1⟩) ∧
      (⟨"etag-1", 1⟩ : UploadPart).partNumber = 0 + 1) ∧
    (uploadChunk (fun _ => none) [1, 2] "https://p1" (0 + 1) =
        .error "failed to upload chunk 1" ∧
      taskRecord (uploadChunk (fun _ => none) [1, 2] "https://p1" (0 + 1)) =
        (some "failed to upload chunk 1", none)) := by
  constructor
  · have h := (chunk_task_recording (fun _ => some ⟨200, "etag-1", ""⟩) [1, 2] "https://p1" 0).1
      ⟨"etag-1", 1⟩ rfl
    exact ⟨rfl, h.2.1, h.1⟩
  · have h := (chunk_task_recording (fun _ => none) [1, 2] "https://p1" 0).2.1
      "failed to upload chunk 1" rfl
    exact ⟨rfl, h⟩

/-- C9 counterexample: the reference `httpx://img.example/a.png` has
scheme `httpx`, which is neither `http` nor `https`, yet local validation
accepts it (the check is a literal prefix test for "http") and the
pipeline proceeds to acquisition: the recorded failure is the fetch
stage's error, not the local validation failure. -/
theorem scheme_check_counterexample :
    validateImageUrl "httpx://img.example/a.png" = true ∧
    (urlScheme "httpx://img.example/a.png" == "http") = false ∧
    (urlScheme "httpx://img.example/a.png" == "https") = false ∧
    (uploadOneImage
        { fetch := fun _ => .error "fetch refused"
          initUpload := fun _ _ _ => .error "unused"
          net := fun _ => none
          completeStatus := 200 }
        "httpx://img.example/a.png").outcome
      = .failed "httpx://img.example/a.png" "fetch refused" ∧
    ((ImageOutcome.failed "httpx://img.example/a.png" "fetch refused") ==
      (ImageOutcome.failed "httpx://img.example/a.png"
        "URL must start with http:// or https://")) = false := by
  refine ⟨by decide, by decide, by decide, by decide, by decide⟩

/-- C9 (amended): the pipeline locally rejects exactly those references
that do not start with the literal string "http", recording the
validation failure before any network work — the result does not depend
on any oracle, so nothing is sent over the network.  References whose
scheme merely begins with "http" (such as `httpx://`) pass this check. -/
theorem non_http_reference_rejected_locally (env : UploadEnv) (url : String)
    (h : validateImageUrl url = false) :
    uploadOneImage env url =
      { outcome := .failed url "URL must start with http:// or https://"
        finalizeCall := none } := by
  unfold uploadOneImage
  rw [h]
  rfl

theorem non_http_reference_rejected_locally_witness :
    validateImageUrl "ftp://host/file.png" = false ∧
    uploadOneImage
        { fetch := fun _ => .error "must not be consulted"
          initUpload := fun _ _ _ => .error "unused"
          net := fun _ => none
          completeStatus := 200 }
        "ftp://host/file.png" =
      { outcome := .failed "ftp://host/file.png" "URL must start with http:// or https://"
        finalizeCall := none } :=
  ⟨by decide, non_http_reference_rejected_locally _ "ftp://host/file.png" (by decide)⟩

/-- C8 counterexample: for a 5×2 source and 4×4 bounds the scale is 4/5;
the code truncates `2 * (4/5) = 1.6` to height 1, while the claim's
`round(srcH*scale)` gives height 2. -/
theorem resize_truncation_counterexample :
    resizeImageDims 5 2 4 4 = (4, 1) ∧
    specResizeDimsRounded 5 2 4 4 = (4, 2) ∧
    (((4 : ℕ), (1 : ℕ)) == ((4 : ℕ), (2 : ℕ))) = false := by
  refine ⟨?_, ?_, by decide⟩
  · norm_num [resizeImageDims]
    omega
  · norm_num [specResizeDimsRounded, min_def, round_eq]
    omega

lemma min_eq_go_select (a b : ℚ) : min a b = if b < a then b else a := by
  rcases lt_or_le b a with h | h
  · rw [if_pos h, min_eq_right h.le]
  · rw [if_neg (not_lt.mpr h), min_eq_left h]

lemma one_le_scale_iff (srcW srcH maxW maxH : ℕ) (hw : 0 < srcW) (hh : 0 < srcH) :
    1 ≤ min ((maxW : ℚ) / (srcW : ℚ)) ((maxH : ℚ) / (srcH : ℚ)) ↔
      (srcW ≤ maxW ∧ srcH ≤ maxH) := by
  rw [le_min_iff]
  have hw' : (0 : ℚ) < (srcW : ℚ) := by exact_mod_cast hw
  have hh' : (0 : ℚ) < (srcH : ℚ) := by exact_mod_cast hh
  rw [one_le_div hw', one_le_div hh']
  constructor
  · intro ⟨h1, h2⟩; exact ⟨by exact_mod_cast h1, by exact_mod_cast h2⟩
  · intro ⟨h1, h2⟩; exact ⟨by exact_mod_cast h1, by exact_mod_cast h2⟩

/-- C8 (amended): resizing computes `scale = min(maxW/srcW, maxH/srcH)`;
if scale ≥ 1 the image passes through unchanged, otherwise it is
resampled (with the bilinear filter) to `⌊srcW*scale⌋ × ⌊srcH*scale⌋` —
the scaled dimensions are truncated (Go `int(...)`), not rounded — and
the result never upscales. -/
theorem resize_dims_spec (srcW srcH maxW maxH : ℕ) (hw : 0 < srcW) (hh : 0 < srcH) :
    (1 ≤ min ((maxW : ℚ) / (srcW : ℚ)) ((maxH : ℚ) / (srcH : ℚ)) →
      resizeImageDims srcW srcH maxW maxH = (srcW, srcH)) ∧
    (min ((maxW : ℚ) / (srcW : ℚ)) ((maxH : ℚ) / (srcH : ℚ)) < 1 →
      resizeImageDims srcW srcH maxW maxH =
        ((⌊(srcW : ℚ) * min ((maxW : ℚ) / (srcW : ℚ)) ((maxH : ℚ) / (srcH : ℚ))⌋).toNat,
         (⌊(srcH : ℚ) * min ((maxW : ℚ) / (srcW : ℚ)) ((maxH : ℚ) / (srcH : ℚ))⌋).toNat)) ∧
    (resizeImageDims srcW srcH maxW maxH).1 ≤ srcW ∧
    (resizeImageDims srcW srcH maxW maxH).2 ≤ srcH := by
  by_cases hfit : srcW ≤ maxW ∧ srcH ≤ maxH
  · rw [resizeImageDims, if_pos hfit]
    exact ⟨fun _ => rfl, fun hlt => absurd ((one_le_scale_iff srcW srcH maxW maxH hw hh).mpr hfit)
      (not_le.mpr hlt), le_refl _, le_refl _⟩
  · have hkey : resizeImageDims srcW srcH maxW maxH =
        ((⌊(srcW : ℚ) * min ((maxW : ℚ) / (srcW : ℚ)) ((maxH : ℚ) / (srcH : ℚ))⌋).toNat,
         (⌊(srcH : ℚ) * min ((maxW : ℚ) / (srcW : ℚ)) ((maxH : ℚ) / (srcH : ℚ))⌋).toNat) := by
      rw [resizeImageDims, if_neg hfit, min_eq_go_select]
    have hscale : min ((maxW : ℚ) / (srcW : ℚ)) ((maxH : ℚ) / (srcH : ℚ)) < 1 :=
      not_le.mp fun hc => hfit ((one_le_scale_iff srcW srcH maxW maxH hw hh).mp hc)
    refine ⟨fun hge => absurd hge (not_le.mpr hscale), fun _ => hkey, ?_, ?_⟩
    · rw [hkey]
      have : ⌊(srcW : ℚ) * min ((maxW : ℚ) / (srcW : ℚ)) ((maxH : ℚ) / (srcH : ℚ))⌋ ≤ (srcW : ℤ) := by
        have hle : (srcW : ℚ) * min ((maxW : ℚ) / (srcW : ℚ)) ((maxH : ℚ) / (srcH : ℚ)) ≤ (srcW : ℚ) :=
          mul_le_of_le_one_right (by positivity) hscale.le
        calc ⌊(srcW : ℚ) * _⌋ ≤ ⌊(srcW : ℚ)⌋ := Int.floor_le_floor hle
          _ = (srcW : ℤ) := Int.floor_natCast srcW
      omega
    · rw [hkey]
      have : ⌊(srcH : ℚ) * min ((maxW : ℚ) / (srcW : ℚ)) ((maxH : ℚ) / (srcH : ℚ))⌋ ≤ (srcH : ℤ) := by
        have hle : (srcH : ℚ) * min ((maxW : ℚ) / (srcW : ℚ)) ((maxH : ℚ) / (srcH : ℚ)) ≤ (srcH : ℚ) :=
          mul_le_of_le_one_right (by positivity) hscale.le
        calc ⌊(srcH : ℚ) * _⌋ ≤ ⌊(srcH : ℚ)⌋ := Int.floor_le_floor hle
          _ = (srcH : ℤ) := Int.floor_natCast srcH
      omega

theorem resize_dims_spec_witness :
    ((0 : ℕ) < 5 ∧ (0 : ℕ) < 2 ∧
      (min ((4 : ℚ) / ((5 : ℕ) : ℚ)) ((4 : ℚ) / ((2 : ℕ) : ℚ)) < 1 →
        resizeImageDims 5 2 4 4 =
          ((⌊((5 : ℕ) : ℚ) * min (((4 : ℕ) : ℚ) / ((5 : ℕ) : ℚ)) (((4 : ℕ) : ℚ) / ((2 : ℕ) : ℚ))⌋).toNat,
           (⌊((2 : ℕ) : ℚ) * min (((4 : ℕ) : ℚ) / ((5 : ℕ) : ℚ)) (((4 : ℕ) : ℚ) / ((2 : ℕ) : ℚ))⌋).toNat)) ∧
      (resizeImageDims 5 2 4 4).1 ≤ 5 ∧ (resizeImageDims 5 2 4 4).2 ≤ 2) := by
  have h := resize_dims_spec 5 2 4 4 (by norm_num) (by norm_num)
  refine ⟨by norm_num, by norm_num, ?_, h.2.2.1, h.2.2.2⟩
  intro hlt
  push_cast at hlt ⊢
  exact h.2.1 (by push_cast; exact hlt)

lemma chunk_start_lt (L i : Nat) (hL : 0 < L) (hi : i < numChunks L) :
    i * CHUNK_SIZE < L := by
  unfold numChunks CHUNK_SIZE at *
  omega

lemma numChunks_mul_ge (L : Nat) : L ≤ numChunks L * CHUNK_SIZE := by
  unfold numChunks CHUNK_SIZE
  omega

lemma numChunks_pos_of_lt (L : Nat) (n : Nat) (h : 0 < n) (hn : n ≤ numChunks L) : 0 < L := by
  unfold numChunks CHUNK_SIZE at hn
  omega

lemma sliceChunk_valid (data : List Nat) (i : Nat) (h : i * CHUNK_SIZE ≤ data.length) :
    sliceChunk data i =
      some ((data.drop (i * CHUNK_SIZE)).take
        (min (i * CHUNK_SIZE + CHUNK_SIZE) data.length - i * CHUNK_SIZE)) := by
  simp only [sliceChunk]
  rw [if_pos (by omega)]

lemma sliceChunk_oob (data : List Nat) (i : Nat) (h : data.length < i * CHUNK_SIZE) :
    sliceChunk data i = none := by
  simp only [sliceChunk]
  rw [if_neg (by omega)]

lemma runChunkTasksAux_total (net : ChunkRequest → Option PartResponse) (data : List Nat) :
    ∀ (urls : List String) (i0 : Nat),
      (∀ k, k < urls.length → (i0 + k) * CHUNK_SIZE ≤ data.length) →
      ∃ recs, runChunkTasksAux net data urls i0 = some recs ∧ recs.length = urls.length := by
  intro urls
  induction urls with
  | nil => exact fun i0 _ => ⟨[], rfl, rfl⟩
  | cons u rest ih =>
    intro i0 h
    have h0 : i0 * CHUNK_SIZE ≤ data.length := by
      have := h 0 (by simp)
      simpa using this
    obtain ⟨recs, hr, hl⟩ := ih (i0 + 1) (fun k hk => by
      have h2 := h (k + 1) (by simpa using Nat.succ_lt_succ hk)
      rw [show i0 + 1 + k = i0 + (k + 1) by omega]
      exact h2)
    refine ⟨taskRecord (uploadChunk net
        ((data.drop (i0 * CHUNK_SIZE)).take
          (min (i0 * CHUNK_SIZE + CHUNK_SIZE) data.length - i0 * CHUNK_SIZE)) u (i0 + 1)) :: recs,
      ?_, ?_⟩
    · simp only [runChunkTasksAux, sliceChunk_valid data i0 h0, hr]
    · simp [hl]

lemma runChunkTasksAux_panics (net : ChunkRequest → Option PartResponse) (data : List Nat) :
    ∀ (urls : List String) (i0 k : Nat), k < urls.length →
      sliceChunk data (i0 + k) = none → runChunkTasksAux net data urls i0 = none := by
  intro urls
  induction urls with
  | nil => intro i0 k hk; exact absurd hk (by simp)
  | cons u rest ih =>
    intro i0 k hk hnone
    cases k with
    | zero =>
      simp only [Nat.add_zero] at hnone
      simp only [runChunkTasksAux, hnone]
    | succ k =>
      cases hs0 : sliceChunk data i0 with
      | none => simp only [runChunkTasksAux, hs0]
      | some chunk =>
        have : runChunkTasksAux net data rest (i0 + 1) = none := by
          apply ih (i0 + 1) k (by simp only [List.length_cons] at hk; omega)
          have : i0 + 1 + k = i0 + (k + 1) := by omega
          rw [this]
          exact hnone
        simp only [runChunkTasksAux, hs0, this]

lemma sliceChunk_shape (data : List Nat) (hL : 0 < data.length) :
    ∀ i, i < numChunks data.length →
      ∃ chunk, sliceChunk data i = some chunk ∧
        chunk.length = min ((i + 1) * CHUNK_SIZE) data.length - i * CHUNK_SIZE ∧
        (∀ j, j < chunk.length → chunk[j]? = data[i * CHUNK_SIZE + j]?) := by
  intro i hi
  have hs : i * CHUNK_SIZE ≤ data.length := (chunk_start_lt data.length i hL hi).le
  refine ⟨_, sliceChunk_valid data i hs, ?_, ?_⟩
  · rw [List.length_take, List.length_drop]
    have hmul : (i + 1) * CHUNK_SIZE = i * CHUNK_SIZE + CHUNK_SIZE := by ring
    rw [hmul]
    generalize i * CHUNK_SIZE = s at *
    omega
  · intro j hj
    rw [List.length_take, List.length_drop] at hj
    rw [List.getElem?_take, if_pos (by omega), List.getElem?_drop]

/-- C5: for a buffer of length L > 0, when initialize returns
`ceil(L/CHUNK_SIZE)` upload URLs the dispatch loop runs exactly that many
chunk tasks; chunk i covers bytes `[i*C, min((i+1)*C, L))`, the last
chunk has length `L - C*(parts-1)`, and the assigned partNumbers are
exactly `1..parts` with no gaps or duplicates. -/
theorem chunk_partitioning (data : List Nat) (net : ChunkRequest → Option PartResponse)
    (urls : List String) (hL : 0 < data.length) (hn : urls.length = numChunks data.length) :
    assignedPartNumbers urls.length = List.range' 1 urls.length ∧
    (assignedPartNumbers urls.length).Nodup ∧
    (∃ recs, runChunkTasks net data urls = some recs ∧ recs.length = numChunks data.length) ∧
    (∀ i, i < numChunks data.length →
      ∃ chunk, sliceChunk data i = some chunk ∧
        chunk.length = min ((i + 1) * CHUNK_SIZE) data.length - i * CHUNK_SIZE ∧
        (∀ j, j < chunk.length → chunk[j]? = data[i * CHUNK_SIZE + j]?)) ∧
    (∀ chunk, sliceChunk data (numChunks data.length - 1) = some chunk →
      chunk.length = data.length - CHUNK_SIZE * (numChunks data.length - 1)) := by
  refine ⟨?_, ?_, ?_, sliceChunk_shape data hL, ?_⟩
  · unfold assignedPartNumbers
    rw [List.range'_eq_map_range]
    exact List.map_congr_left (fun x _ => Nat.add_comm x 1)
  · exact (List.nodup_range _).map (add_left_injective 1)
  · obtain ⟨recs, hr, hl⟩ := runChunkTasksAux_total net data urls 0 (fun k hk => by
      rw [Nat.zero_add]
      exact (chunk_start_lt data.length k hL (hn ▸ hk)).le)
    exact ⟨recs, hr, by omega⟩
  · intro chunk hc
    have hn1 : 0 < numChunks data.length := by
      unfold numChunks CHUNK_SIZE
      omega
    obtain ⟨chunk2, hc2, hlen, _⟩ := sliceChunk_shape data hL (numChunks data.length - 1)
      (by omega)
    rw [hc] at hc2
    have heq : chunk = chunk2 := by injection hc2
    subst heq
    rw [hlen]
    have he : numChunks data.length - 1 + 1 = numChunks data.length := by omega
    rw [he]
    rw [min_eq_right (numChunks_mul_ge data.length)]
    rw [Nat.mul_comm]

theorem chunk_partitioning_witness :
    (0 < ([1, 2, 3] : List Nat).length) ∧
    (["u1"].length = numChunks ([1, 2, 3] : List Nat).length) ∧
    (∃ recs, runChunkTasks (fun _ => none) [1, 2, 3] ["u1"] = some recs ∧
      recs.length = numChunks ([1, 2, 3] : List Nat).length) := by
  refine ⟨by decide, by decide, ?_⟩
  exact (chunk_partitioning [1, 2, 3] (fun _ => none) ["u1"] (by decide) (by decide)).2.2.1

/-- C10: the chunk-boundary computation is total under the precondition
that the number of upload URLs is at most `ceil(len(imageData)/CHUNK_SIZE)`;
for any upload URL at an index i with `i*CHUNK_SIZE > len(imageData)` the
slice expression has start > end, so the chunk task panics
(`runChunkTasks` produces no record list) instead of recording a
per-part error. -/
theorem chunk_slice_out_of_range :
    (∀ (data : List Nat) (i : Nat), data.length < i * CHUNK_SIZE →
      sliceChunk data i = none) ∧
    (∀ (data : List Nat) (net : ChunkRequest → Option PartResponse) (urls : List String)
        (i : Nat), i < urls.length → data.length < i * CHUNK_SIZE →
      runChunkTasks net data urls = none) ∧
    (∀ (data : List Nat) (net : ChunkRequest → Option PartResponse) (urls : List String),
      urls.length ≤ numChunks data.length → (runChunkTasks net data urls).isSome = true) := by
  refine ⟨fun data i h => sliceChunk_oob data i h, ?_, ?_⟩
  · intro data net urls i hi hoob
    exact runChunkTasksAux_panics net data urls 0 i hi
      (by rw [Nat.zero_add]; exact sliceChunk_oob data i hoob)
  · intro data net urls hle
    obtain ⟨recs, hr, _⟩ := runChunkTasksAux_total net data urls 0 (fun k hk => by
      rw [Nat.zero_add]
      rcases Nat.eq_zero_or_pos data.length with h0 | hL
      · exfalso
        have hz : numChunks data.length = 0 := by rw [h0]; decide
        omega
      · exact (chunk_start_lt data.length k hL (lt_of_lt_of_le hk hle)).le)
    rw [runChunkTasks, hr]
    rfl

theorem chunk_slice_out_of_range_witness :
    (([1, 2, 3] : List Nat).length < 1 * CHUNK_SIZE ∧
      runChunkTasks (fun _ => none) [1, 2, 3] ["u1", "u2"] = none) ∧
    (["u1"].length ≤ numChunks ([1, 2, 3] : List Nat).length ∧
      (runChunkTasks (fun _ => none) [1, 2, 3] ["u1"]).isSome = true) := by
  constructor
  · exact ⟨by decide, chunk_slice_out_of_range.2.1 [1, 2, 3] (fun _ => none) ["u1", "u2"] 1
      (by decide) (by decide)⟩
  · exact ⟨by decide, chunk_slice_out_of_range.2.2 [1, 2, 3] (fun _ => none) ["u1"]
      (by decide)⟩

/-- C1: within one image upload, if at least one chunk task records a
per-part error then the finalize call (POST /api/upload/complete) is
never made and the image is recorded as failed with the aggregate reason
"Failed to upload some chunks"; conversely, whenever finalize is called,
every chunk task succeeded (all error slots are empty). -/
theorem upload_finalize_gating :
    (∀ (env : UploadEnv) (url : String) (data : List Nat) (w h : Nat)
        (ir : InitUploadResponse) (recs : List (Option String × Option UploadPart)),
      validateImageUrl url = true →
      env.fetch url = .ok (data, w, h) →
      env.initUpload data.length w h = .ok ir →
      runChunkTasks env.net data ir.uploadUrls = some recs →
      recs.any (fun r => r.1.isSome) = true →
      (uploadOneImage env url).finalizeCall = none ∧
      (uploadOneImage env url).outcome = .failed url "Failed to upload some chunks") ∧
    (∀ (env : UploadEnv) (url : String),
      ((uploadOneImage env url).finalizeCall).isSome = true →
      ∃ data w h ir recs,
        validateImageUrl url = true ∧
        env.fetch url = .ok (data, w, h) ∧
        env.initUpload data.length w h = .ok ir ∧
        runChunkTasks env.net data ir.uploadUrls = some recs ∧
        recs.all (fun r => r.1.isNone) = true) := by
  constructor
  · intro env url data w h ir recs hv hf hi hr hany
    unfold uploadOneImage
    rw [hv]
    simp only [Bool.not_true, Bool.false_eq_true, if_false]
    rw [hf]
    dsimp only
    rw [hi]
    dsimp only
    rw [hr]
    dsimp only
    unfold uploadDecision
    rw [if_pos hany]
    exact ⟨rfl, rfl⟩
  · intro env url hcall
    unfold uploadOneImage at hcall
    cases hv : validateImageUrl url with
    | false =>
      rw [hv] at hcall
      simp at hcall
    | true =>
      rw [hv] at hcall
      simp only [Bool.not_true, Bool.false_eq_true, if_false] at hcall
      cases hf : env.fetch url with
      | error e => rw [hf] at hcall; simp at hcall
      | ok t =>
        obtain ⟨data, w, h⟩ := t
        rw [hf] at hcall
        dsimp only at hcall
        cases hi : env.initUpload data.length w h with
        | error e => rw [hi] at hcall; simp at hcall
        | ok ir =>
          rw [hi] at hcall
          dsimp only at hcall
          cases hr : runChunkTasks env.net data ir.uploadUrls with
          | none => rw [hr] at hcall; simp at hcall
          | some recs =>
            rw [hr] at hcall
            dsimp only at hcall
            refine ⟨data, w, h, ir, recs, rfl, rfl, hi, hr, ?_⟩
            cases hd : uploadDecision recs with
            | none => rw [hd] at hcall; simp at hcall
            | some parts =>
              unfold uploadDecision at hd
              by_cases hany : recs.any (fun r => r.1.isSome) = true
              · rw [if_pos hany] at hd; exact absurd hd (by simp)
              · rw [List.all_eq_true]
                intro r hrmem
                have : r.1.isSome = false := by
                  by_contra hc
                  exact hany (List.any_eq_true.mpr ⟨r, hrmem, by revert hc; cases r.1.isSome <;> simp⟩)
                cases hone : r.1 with
                | none => rfl
                | some e => rw [hone] at this; simp at this

theorem upload_finalize_gating_witness :
    (uploadOneImage
        { fetch := fun _ => .ok ([1, 2, 3], 2, 2)
          initUpload := fun _ _ _ => .ok ⟨"key1", "uid1", ["u1"], "file1"⟩
          net := fun _ => none
          completeStatus := 200 }
        "http://img.example/a.png").finalizeCall = none ∧
    (uploadOneImage
        { fetch := fun _ => .ok ([1, 2, 3], 2, 2)
          initUpload := fun _ _ _ => .ok ⟨"key1", "uid1", ["u1"], "file1"⟩
          net := fun _ => none
          completeStatus := 200 }
        "http://img.example/a.png").outcome
      = .failed "http://img.example/a.png" "Failed to upload some chunks" :=
  upload_finalize_gating.1
    { fetch := fun _ => .ok ([1, 2, 3], 2, 2)
      initUpload := fun _ _ _ => .ok ⟨"key1", "uid1", ["u1"], "file1"⟩
      net := fun _ => none
      completeStatus := 200 }
    "http://img.example/a.png" [1, 2, 3] 2 2 ⟨"key1", "uid1", ["u1"], "file1"⟩
    [(some "failed to upload chunk 1", none)]
    (by decide) rfl rfl (by decide) (by decide)

end GaiaMCP
